import Mathlib

/-!
Shallow embedding of the Normo backend's indexing and retrieval core
(normo_backend/services/vector_store.py, normo_backend/agents/rag_retriever.py,
normo_backend/agents/builder.py, normo_backend/utils/pdf_processor.py),
together with theorems settling the specification claims about it.

Strings from the Python side are modelled as Lean `String`s; Python's
case folding and whitespace handling are modelled on the ASCII range,
which covers every string the routing and scanning code compares against.
-/

namespace Normo

/-- Python `s.startswith(p)`: `p` is a prefix of `s` (character-wise). -/
def pyStartsWith (s p : String) : Bool := p.data.isPrefixOf s.data

/-- Python `str.lower`, restricted to ASCII letters (the only letters the
routing code compares against). -/
def lowerChar (c : Char) : Char :=
  if 65 ≤ c.toNat ∧ c.toNat ≤ 90 then Char.ofNat (c.toNat + 32) else c

/-- Python `str.lower` over a whole string. -/
def pyLower (s : String) : String := String.mk (s.data.map lowerChar)

/-- Python's notion of whitespace for `str.strip` (ASCII range). -/
def pyIsSpace (c : Char) : Bool :=
  c = ' ' ∨ c = '\t' ∨ c = '\n' ∨ c = '\r' ∨ c = Char.ofNat 11 ∨ c = Char.ofNat 12

/-- Python `str.strip`: drop leading and trailing whitespace. -/
def pyStrip (s : String) : String :=
  String.mk (((s.data.dropWhile pyIsSpace).reverse.dropWhile pyIsSpace).reverse)

/-- A chunk as stored in / returned by the vector store: the metadata fields
the retrieval code reads (`source`, `page`, `paragraph`, `chunk_id`) plus the
chunk text (`page_content`). -/
structure Doc where
  source : String
  page : Nat
  paragraph : Nat
  chunk_id : String
  page_content : String
deriving DecidableEq, Repr

/-- rag_retriever.py, `get_document_priority` (lines 24-34): priority level
from the leading filename prefix of the `source` metadata field. -/
def get_document_priority (doc : Doc) : Nat :=
  if pyStartsWith doc.source "1_" || pyStartsWith doc.source "2_" then 1
  else if pyStartsWith doc.source "3_" then 2
  else if pyStartsWith doc.source "4_" then 3
  else 4

/-- The Python sort key `(get_document_priority(doc), -len(doc.page_content))`
read as a non-strict order: a comes before-or-with b. -/
def sortLE (a b : Doc) : Prop :=
  get_document_priority a < get_document_priority b ∨
    (get_document_priority a = get_document_priority b ∧
      b.page_content.length ≤ a.page_content.length)

/-- Strict version of `sortLE`. -/
def sortLT (a b : Doc) : Prop :=
  get_document_priority a < get_document_priority b ∨
    (get_document_priority a = get_document_priority b ∧
      b.page_content.length < a.page_content.length)

instance (a b : Doc) : Decidable (sortLE a b) := by unfold sortLE; infer_instance

instance (a b : Doc) : Decidable (sortLT a b) := by unfold sortLT; infer_instance

/-- Stable insertion of one element into a list sorted by the key
`(priority, -content length)`: the new element goes after every element
strictly smaller than it, and before the first element not strictly smaller
(so elements with an equal key keep their original relative order). -/
def insertDoc (d : Doc) : List Doc → List Doc
  | [] => [d]
  | x :: xs => if sortLT x d then x :: insertDoc d xs else d :: x :: xs

/-- Stable sort by `(priority, -content length)`; models
`all_docs.sort(key=lambda doc: (get_document_priority(doc), -len(doc.page_content)))`
(rag_retriever.py line 62), Python's `list.sort` being a stable sort. -/
def sortDocs : List Doc → List Doc
  | [] => []
  | d :: ds => insertDoc d (sortDocs ds)

/-- rag_retriever.py lines 49-59: merge the per-query result lists in order,
keeping a document only when its `page_content` has not been seen yet
(`seen_content` accumulates the texts already kept). -/
def dedupByContent : List Doc → List String → List Doc
  | [], _ => []
  | d :: ds, seen =>
    if d.page_content ∈ seen then dedupByContent ds seen
    else d :: dedupByContent ds (d.page_content :: seen)

/-- The merged, de-duplicated `all_docs` list of `retrieve_documents`,
as a function of the per-query search results. -/
def mergeResults (queryResults : List (List Doc)) : List Doc :=
  dedupByContent queryResults.flatten []

/-- rag_retriever.py lines 49-65: merge, de-duplicate, sort by
`(priority, -len)`, then keep the top 8 documents. -/
def retrieveRanked (queryResults : List (List Doc)) : List Doc :=
  (sortDocs (mergeResults queryResults)).take 8

/-! ### Persistent vector store (services/vector_store.py) -/

/-- File statistics as collected by `_get_pdf_stats` (vector_store.py
lines 73-83): size, modification time and content hash of the file. -/
structure FileStats where
  size : Nat
  modified : Nat
  hash : String
deriving DecidableEq, Repr

/-- The `pdf_metadata` JSON dictionary: an insertion-ordered map from PDF
name to its recorded statistics. `none` models the empty dictionary that
`_get_pdf_stats` returns on an `OSError`. -/
abbrev Metadata := List (String × Option FileStats)

/-- Dictionary membership / read (`pdf_name in self.pdf_metadata`,
`self.pdf_metadata[pdf_name]`). -/
def lookupMd : Metadata → String → Option (Option FileStats)
  | [], _ => none
  | (k, v) :: rest, key => if k = key then some v else lookupMd rest key

/-- Dictionary assignment `self.pdf_metadata[pdf_name] = value`: replace the
value at an existing key in place, otherwise append a new binding. -/
def setMd : Metadata → String → Option FileStats → Metadata
  | [], key, v => [(key, v)]
  | (k, w) :: rest, key, v =>
    if k = key then (key, v) :: rest else (k, w) :: setMd rest key v

/-- The environment the store runs against: whether a file exists, its
current statistics (`none` models an `os.stat` failure), the chunks that
loading it yields (`none` models an exception raised while loading, which
`load_pdfs_from_folder` catches and skips), and the list of PDFs
`get_available_pdfs` would discover. -/
structure Env where
  fexists : String → Bool
  stats : String → Option FileStats
  load : String → Option (List Doc)
  available : List String

/-- The mutable state of `PersistentVectorStore`: the stored chunks of the
Chroma collection (in insertion order), the `pdf_metadata` registry, and a
count of `_save_metadata` calls (registry writes). -/
structure StoreState where
  vectors : List Doc
  metadata : Metadata
  metadataSaves : Nat
deriving DecidableEq, Repr

/-- vector_store.py lines 106-107: the stored statistics differ from the
current ones when the hash or the size disagree (an empty stored dictionary
compares unequal on both `.get` reads). -/
def statsChanged (stored : Option FileStats) (cur : FileStats) : Bool :=
  match stored with
  | none => true
  | some s => s.hash != cur.hash || s.size != cur.size

/-- `PersistentVectorStore.get_pdfs_to_process` (lines 85-113): keep, in
order, each requested PDF that exists and has readable statistics, and is
either absent from `pdf_metadata` or has changed statistics. -/
def get_pdfs_to_process (env : Env) (md : Metadata) : List String → List String
  | [] => []
  | pdf :: rest =>
    let tail := get_pdfs_to_process env md rest
    if env.fexists pdf then
      match env.stats pdf with
      | none => tail
      | some cur =>
        match lookupMd md pdf with
        | none => pdf :: tail
        | some stored => if statsChanged stored cur then pdf :: tail else tail
    else tail

/-- `PersistentVectorStore.remove_pdf_embeddings` (lines 115-133): the body
runs a similarity search and then falls through a `pass` statement — it
performs no change to the stored vectors or metadata. -/
def remove_pdf_embeddings (st : StoreState) (_pdf_name : String) : StoreState :=
  st

/-- `load_pdfs_from_folder` (pdf_processor.py lines 145-226) at the level of
detail the store claims need: per requested PDF, a missing file or an
exception while loading skips that PDF (the batch continues), otherwise its
chunks are appended in order. -/
def load_pdfs_from_folder (env : Env) : List String → List Doc
  | [] => []
  | pdf :: rest =>
    let tail := load_pdfs_from_folder env rest
    if env.fexists pdf then
      match env.load pdf with
      | none => tail
      | some docs => docs ++ tail
    else tail

/-- vector_store.py lines 153-157: for every requested PDF whose file
exists, record its current statistics in `pdf_metadata`. -/
def updateMetadata (env : Env) (md : Metadata) : List String → Metadata
  | [] => md
  | pdf :: rest =>
    updateMetadata env (if env.fexists pdf then setMd md pdf (env.stats pdf) else md) rest

/-- `PersistentVectorStore.add_pdf_embeddings` (lines 135-163): on an empty
request or an empty load result, change nothing and report 0 chunks;
otherwise append the loaded chunks to the collection, record statistics for
every existing requested PDF, and save the metadata file once. -/
def add_pdf_embeddings (env : Env) (st : StoreState) (pdf_names : List String) :
    StoreState × Nat :=
  if pdf_names.isEmpty then (st, 0)
  else
    let documents := load_pdfs_from_folder env pdf_names
    if documents.isEmpty then (st, 0)
    else
      ({ vectors := st.vectors ++ documents,
         metadata := updateMetadata env st.metadata pdf_names,
         metadataSaves := st.metadataSaves + 1 },
       documents.length)

/-- `PersistentVectorStore.ensure_pdfs_embedded` (lines 181-207). -/
def ensure_pdfs_embedded (env : Env) (st : StoreState) (pdf_names : List String) :
    StoreState × Bool :=
  let names := if pdf_names.isEmpty then env.available else pdf_names
  let existing_pdfs := names.filter env.fexists
  if existing_pdfs.isEmpty then (st, false)
  else
    let pdfs_to_process := get_pdfs_to_process env st.metadata existing_pdfs
    if pdfs_to_process.isEmpty then (st, false)
    else
      let r := add_pdf_embeddings env st pdfs_to_process
      (r.1, decide (0 < r.2))

/-! ### Citation extraction (agents/rag_retriever.py) -/

/-- Truncation of a chunk text to the cited excerpt:
`content[:200] + "..." if len(content) > 200 else content`
(rag_retriever.py lines 101 and 278). -/
def relevantContent (content : String) : String :=
  if content.length > 200 then String.mk (content.data.take 200) ++ "..." else content

/-- Case-insensitive character comparison (ASCII case folding). -/
def ciEq (a b : Char) : Bool := lowerChar a == lowerChar b

/-- Match the literal `pat` case-insensitively at the front of `cs`,
returning the consumed input characters and the remainder. -/
def ciMatch : List Char → List Char → Option (List Char × List Char)
  | [], cs => some ([], cs)
  | _ :: _, [] => none
  | p :: ps, c :: cs =>
    if ciEq p c then
      match ciMatch ps cs with
      | some (m, rest) => some (c :: m, rest)
      | none => none
    else none

/-- The alternative `square\s*meter` of the area regex. -/
def matchSquareMeter (cs : List Char) : Option (List Char × List Char) :=
  match ciMatch "square".data cs with
  | none => none
  | some (m1, r1) =>
    let ws := r1.takeWhile pyIsSpace
    let r2 := r1.dropWhile pyIsSpace
    match ciMatch "meter".data r2 with
    | none => none
    | some (m2, r3) => some (m1 ++ ws ++ m2, r3)

/-- The unit alternation `(?:m²|qm|Quadratmeter|square\s*meter)` of the area
regex, tried in the written order. -/
def matchUnit (cs : List Char) : Option (List Char × List Char) :=
  match ciMatch "m²".data cs with
  | some r => some r
  | none =>
    match ciMatch "qm".data cs with
    | some r => some r
    | none =>
      match ciMatch "Quadratmeter".data cs with
      | some r => some r
      | none => matchSquareMeter cs

/-- One attempted match of the area regex
`\d+(?:\.\d+)?\s*(?:m²|qm|Quadratmeter|square\s*meter)` (IGNORECASE) at the
front of `cs`. Greedy munching is exact here: no unit starts with a digit, a
dot or whitespace, so the regex never needs to backtrack into `\d+`,
`(?:\.\d+)?` or `\s*`. -/
def matchAreaAt (cs : List Char) : Option (List Char × List Char) :=
  let ds := cs.takeWhile Char.isDigit
  let r1 := cs.dropWhile Char.isDigit
  if ds.isEmpty then none
  else
    let fr :=
      match r1 with
      | '.' :: r =>
        let fs := r.takeWhile Char.isDigit
        if fs.isEmpty then (([] : List Char), r1) else ('.' :: fs, r.dropWhile Char.isDigit)
      | _ => ([], r1)
    let ws := fr.2.takeWhile pyIsSpace
    let r3 := fr.2.dropWhile pyIsSpace
    match matchUnit r3 with
    | some (u, r4) => some (ds ++ fr.1 ++ ws ++ u, r4)
    | none => none

/-- The `re.findall` scan for the area regex: try a match at every position,
emit it and continue after it, otherwise advance one character. The fuel is
the input length (every match consumes at least one character). -/
def scanAreasAux : Nat → List Char → List (List Char)
  | 0, _ => []
  | _ + 1, [] => []
  | n + 1, c :: cs =>
    match matchAreaAt (c :: cs) with
    | some (m, rest) => m :: scanAreasAux n rest
    | none => scanAreasAux n cs

/-- `re.findall(r'\d+(?:\.\d+)?\s*(?:m²|qm|Quadratmeter|square\s*meter)',
content, re.IGNORECASE)` (rag_retriever.py lines 110 and 283). -/
def findAreaMeasurements (s : String) : List String :=
  (scanAreasAux s.data.length s.data).map String.mk

/-- The operator class `[+\-×x*]` of the calculation regex. -/
def isOpChar (c : Char) : Bool := c = '+' ∨ c = '-' ∨ c = '×' ∨ c = 'x' ∨ c = '*'

/-- One group `\s*[+\-×x*]\s*\d+` of the calculation regex. -/
def matchOpGroup (cs : List Char) : Option (List Char × List Char) :=
  let ws1 := cs.takeWhile pyIsSpace
  let r1 := cs.dropWhile pyIsSpace
  match r1 with
  | op :: r2 =>
    if isOpChar op then
      let ws2 := r2.takeWhile pyIsSpace
      let r3 := r2.dropWhile pyIsSpace
      let ds := r3.takeWhile Char.isDigit
      let r4 := r3.dropWhile Char.isDigit
      if ds.isEmpty then none else some (ws1 ++ op :: (ws2 ++ ds), r4)
    else none
  | [] => none

/-- Greedy repetition of further operator groups (fuel-bounded; each group
consumes at least two characters). -/
def matchOpGroups : Nat → List Char → List Char × List Char
  | 0, cs => ([], cs)
  | n + 1, cs =>
    match matchOpGroup cs with
    | none => ([], cs)
    | some (g, rest) =>
      let r := matchOpGroups n rest
      (g ++ r.1, r.2)

/-- The optional tail `(?:\s*=\s*\d+)?` of the calculation regex. -/
def matchEqTail (cs : List Char) : List Char × List Char :=
  let ws1 := cs.takeWhile pyIsSpace
  let r1 := cs.dropWhile pyIsSpace
  match r1 with
  | '=' :: r2 =>
    let ws2 := r2.takeWhile pyIsSpace
    let r3 := r2.dropWhile pyIsSpace
    let ds := r3.takeWhile Char.isDigit
    let r4 := r3.dropWhile Char.isDigit
    if ds.isEmpty then ([], cs) else (ws1 ++ '=' :: (ws2 ++ ds), r4)
  | _ => ([], cs)

/-- One attempted match of the calculation regex
`\d+(?:\s*[+\-×x*]\s*\d+)+(?:\s*=\s*\d+)?` at the front of `cs`: leading
digits, at least one operator group, then the optional `= number` tail. -/
def matchCalcAt (cs : List Char) : Option (List Char × List Char) :=
  let ds := cs.takeWhile Char.isDigit
  let r1 := cs.dropWhile Char.isDigit
  if ds.isEmpty then none
  else
    match matchOpGroup r1 with
    | none => none
    | some (g1, r2) =>
      let gs := matchOpGroups r2.length r2
      let eqp := matchEqTail gs.2
      some (ds ++ g1 ++ gs.1 ++ eqp.1, eqp.2)

/-- The `re.findall` scan for the calculation regex. -/
def scanCalcsAux : Nat → List Char → List (List Char)
  | 0, _ => []
  | _ + 1, [] => []
  | n + 1, c :: cs =>
    match matchCalcAt (c :: cs) with
    | some (m, rest) => m :: scanCalcsAux n rest
    | none => scanCalcsAux n cs

/-- `re.findall(r'\d+(?:\s*[+\-×x*]\s*\d+)+(?:\s*=\s*\d+)?', content)`
(rag_retriever.py lines 109 and 282). -/
def findCalculations (s : String) : List String :=
  (scanCalcsAux s.data.length s.data).map String.mk

/-- rag_retriever.py line 262: the priority computed inline for a citation
(`startswith(('1_','2_'))` and so on); same mapping as
`get_document_priority`. -/
def citationPriority (source : String) : Nat :=
  if pyStartsWith source "1_" || pyStartsWith source "2_" then 1
  else if pyStartsWith source "3_" then 2
  else if pyStartsWith source "4_" then 3
  else 4

/-- A citation dictionary (rag_retriever.py lines 270-288). The
`calculations` / `area_measurements` keys are only added when the scans find
something; an absent key is modelled as the empty list. The presentation-only
`priority_text` and `file_path` fields carry no information beyond
`priority` and the document metadata and are omitted. -/
structure Citation where
  pdf_name : String
  page : Nat
  paragraph : Nat
  chunk_id : String
  priority : Nat
  relevant_content : String
  calculations : List String
  area_measurements : List String
deriving DecidableEq, Repr

/-- Build the citation of one retrieved chunk (rag_retriever.py lines
262-288). -/
def mkCitation (doc : Doc) : Citation :=
  { pdf_name := doc.source
    page := doc.page
    paragraph := doc.paragraph
    chunk_id := doc.chunk_id
    priority := citationPriority doc.source
    relevant_content := relevantContent doc.page_content
    calculations := findCalculations doc.page_content
    area_measurements := findAreaMeasurements doc.page_content }

/-- rag_retriever.py line 257: the key under which a retrieved chunk is
de-duplicated in `unique_sources`. -/
def sourceKey (d : Doc) : String :=
  d.source ++ "_p" ++ toString d.page ++ "_s" ++ toString d.paragraph

/-- rag_retriever.py lines 252-291: the `source_citations` list built from
the retrieved chunks, one citation per unseen source key. -/
def buildCitations : List Doc → List String → List Citation
  | [], _ => []
  | d :: ds, seenKeys =>
    if sourceKey d ∈ seenKeys then buildCitations ds seenKeys
    else mkCitation d :: buildCitations ds (sourceKey d :: seenKeys)

/-! ### Pipeline orchestrator (agents/builder.py, models/memory_state.py) -/

/-- The pipeline state threaded through the graph (models/memory_state.py).
The `memory` audit log keeps the roles of the appended entries (their
payloads are opaque dictionaries); `meta_data`, `conversation_id`,
`conversation_history` and `is_follow_up` play no part in routing or
retrieval and are omitted. -/
structure AgentState where
  user_query : String
  next_action : String
  steps : List String
  pdf_names : List String
  summary : String
  memory : List String
  source_citations : List Citation
deriving Repr

/-- builder.py `route_planner` (lines 9-23): empty plan returns the literal
string "retrieve_pdfs"; otherwise the first step is lower-cased and
stripped and mapped to a branch key. -/
def route_planner (state : AgentState) : String :=
  match state.steps with
  | [] => "retrieve_pdfs"
  | s :: _ =>
    let first_step := pyStrip (pyLower s)
    if first_step = "retrieve_pdfs" then "pdf_selector"
    else if first_step = "summarize" then "summarizer"
    else "pdf_selector"

/-- The nodes of the workflow graph (builder.py lines 25-50), with `done`
for the terminal END vertex. -/
inductive Node where
  | meta_data_extractor
  | planner
  | pdf_selector
  | rag_retriever
  | summarizer
  | done
deriving DecidableEq, Repr

/-- The conditional-edge dictionary passed to `add_conditional_edges`
(builder.py lines 38-45): only the keys "pdf_selector" and "summarizer" are
mapped; any other branch key has no successor (the graph raises at run
time). -/
def planner_path_map (key : String) : Option Node :=
  if key = "pdf_selector" then some Node.pdf_selector
  else if key = "summarizer" then some Node.summarizer
  else none

/-- The transition function of the compiled graph: the fixed edges of
builder.py lines 34-48 plus the conditional edge out of the planner. `none`
means the graph has no successor for this node and state. -/
def nextNode : Node → AgentState → Option Node
  | Node.meta_data_extractor, _ => some Node.planner
  | Node.planner, st => planner_path_map (route_planner st)
  | Node.pdf_selector, _ => some Node.rag_retriever
  | Node.rag_retriever, _ => some Node.summarizer
  | Node.summarizer, _ => some Node.done
  | Node.done, _ => none

/-- Whether the graph reaches the terminal node from `n` within `k`
transitions (the edges on the path out of the retriever do not read the
state). -/
def reachesDone (n : Node) (st : AgentState) : Nat → Bool
  | 0 => decide (n = Node.done)
  | k + 1 =>
    decide (n = Node.done) ||
      match nextNode n st with
      | some m => reachesDone m st k
      | none => false

/-- The outcome of the body of the `try` block of `rag_retriever_agent`:
either a final answer with the citations built from the search, or the
message of the exception that was raised. -/
structure RetrievalResult where
  final_answer : String
  citations : List Citation

/-- The summary string written by the `except` branch of
`rag_retriever_agent` (lines 308-315). -/
def ragErrorMessage (e : String) : String :=
  "Error accessing legal documents: Error during RAG retrieval: " ++ e ++
    ". Please ensure PDFs are available and the system is properly configured."

/-- `rag_retriever_agent` (rag_retriever.py lines 134-322) as a function of
the outcome of its fallible body: the success path stores the answer and
citations; the `except Exception` path stores an explanatory error summary
and an empty citation list. Both paths append a memory entry and return the
state instead of raising. -/
def rag_retriever_agent (outcome : Except String RetrievalResult)
    (state : AgentState) : AgentState :=
  match outcome with
  | Except.ok r =>
    { state with
      summary := r.final_answer
      source_citations := r.citations
      memory := state.memory ++ ["rag_retriever_agent"] }
  | Except.error e =>
    { state with
      summary := ragErrorMessage e
      source_citations := []
      memory := state.memory ++ ["rag_retriever_agent"] }

/-! ### Concrete inputs used by the theorems below -/

/-- A pipeline state with the given planned steps and default remaining
fields. -/
def mkState (steps : List String) : AgentState :=
  { user_query := ""
    next_action := "planner"
    steps := steps
    pdf_names := []
    summary := ""
    memory := []
    source_citations := [] }

/-- A fresh vector store: no vectors, no registry entries, no saves. -/
def storeEmpty : StoreState := ⟨[], [], 0⟩

/-- The single chunk of doc.pdf before the file changes. -/
def chunkOld : Doc := ⟨"doc.pdf", 1, 1, "doc.pdf_p1_c1", "old text"⟩

/-- The single chunk of doc.pdf after the file changes. -/
def chunkNew : Doc := ⟨"doc.pdf", 1, 1, "doc.pdf_p1_c1", "new text"⟩

/-- Filesystem before the change: doc.pdf exists with hash h1 and loads to
`chunkOld`. -/
def envV1 : Env :=
  ⟨fun n => n == "doc.pdf",
   fun n => if n == "doc.pdf" then some ⟨100, 5, "h1"⟩ else none,
   fun n => if n == "doc.pdf" then some [chunkOld] else none,
   []⟩

/-- Filesystem after a byte-level change to doc.pdf: same identity, hash h2,
loads to `chunkNew`. -/
def envV2 : Env :=
  ⟨fun n => n == "doc.pdf",
   fun n => if n == "doc.pdf" then some ⟨100, 6, "h2"⟩ else none,
   fun n => if n == "doc.pdf" then some [chunkNew] else none,
   []⟩

/-- The single chunk of B.pdf in the mixed batch. -/
def chunkB : Doc := ⟨"B.pdf", 1, 1, "B.pdf_p1_c1", "text B"⟩

/-- Filesystem for the mixed batch: A.pdf and B.pdf both exist with readable
statistics, loading A.pdf raises (skipped by the loader), loading B.pdf
yields `chunkB`. -/
def envMixed : Env :=
  ⟨fun n => n == "A.pdf" || n == "B.pdf",
   fun n =>
     if n == "A.pdf" then some ⟨1, 0, "ha"⟩
     else if n == "B.pdf" then some ⟨2, 0, "hb"⟩ else none,
   fun n => if n == "B.pdf" then some [chunkB] else none,
   []⟩

/-- The one-page scenario chunk whose text carries two area measurements. -/
def areaDoc : Doc :=
  ⟨"5_test.pdf", 1, 1, "5_test.pdf_p1_c1", "Base area 100 m² + 10 m² per apartment"⟩

/-- A chunk text one character over the truncation threshold. -/
def longText : String := String.mk (List.replicate 201 'a')

/-- A retrieved chunk bearing `longText`. -/
def longDoc : Doc := ⟨"x.pdf", 1, 1, "x.pdf_p1_c1", longText⟩

/-! ### Helper lemmas -/

theorem sortLE_of_sortLT {a b : Doc} (h : sortLT a b) : sortLE a b := by
  unfold sortLT at h
  unfold sortLE
  omega

theorem sortLE_of_not_sortLT {a b : Doc} (h : ¬ sortLT a b) : sortLE b a := by
  unfold sortLT at h
  unfold sortLE
  omega

theorem sortLE_trans {a b c : Doc} (h1 : sortLE a b) (h2 : sortLE b c) : sortLE a c := by
  unfold sortLE at h1 h2 ⊢
  omega

theorem mem_insertDoc {a d : Doc} : ∀ {l : List Doc}, a ∈ insertDoc d l ↔ a = d ∨ a ∈ l
  | [] => by simp [insertDoc]
  | x :: xs => by
    unfold insertDoc
    split
    · simp only [List.mem_cons, @mem_insertDoc a d xs]
      tauto
    · simp only [List.mem_cons]

theorem pairwise_insertDoc {d : Doc} :
    ∀ {l : List Doc}, l.Pairwise sortLE → (insertDoc d l).Pairwise sortLE
  | [], _ => by simp [insertDoc]
  | x :: xs, h => by
    rw [List.pairwise_cons] at h
    unfold insertDoc
    split
    · rename_i hlt
      rw [List.pairwise_cons]
      refine ⟨fun y hy => ?_, pairwise_insertDoc h.2⟩
      rcases mem_insertDoc.mp hy with rfl | hy
      · exact sortLE_of_sortLT hlt
      · exact h.1 y hy
    · rename_i hnlt
      rw [List.pairwise_cons]
      refine ⟨fun y hy => ?_, List.pairwise_cons.mpr h⟩
      rcases List.mem_cons.mp hy with rfl | hy
      · exact sortLE_of_not_sortLT hnlt
      · exact sortLE_trans (sortLE_of_not_sortLT hnlt) (h.1 y hy)

theorem pairwise_sortDocs : ∀ l : List Doc, (sortDocs l).Pairwise sortLE
  | [] => by simp [sortDocs]
  | d :: ds => pairwise_insertDoc (pairwise_sortDocs ds)

theorem dedup_nodup_aux :
    ∀ (l : List Doc) (seen : List String),
      ((dedupByContent l seen).map (fun d => d.page_content)).Nodup ∧
        ∀ t ∈ (dedupByContent l seen).map (fun d => d.page_content), t ∉ seen
  | [], _ => by simp [dedupByContent]
  | d :: ds, seen => by
    unfold dedupByContent
    split
    · exact dedup_nodup_aux ds seen
    · rename_i hns
      have ih := dedup_nodup_aux ds (d.page_content :: seen)
      simp only [List.map_cons, List.nodup_cons, List.mem_cons]
      refine ⟨⟨fun hmem => ?_, ih.1⟩, fun t ht => ?_⟩
      · exact (ih.2 _ hmem) (List.mem_cons_self _ _)
      · rcases ht with rfl | ht
        · exact hns
        · exact fun hs => (ih.2 t ht) (List.mem_cons_of_mem _ hs)

theorem dedup_mem_aux :
    ∀ (l : List Doc) (seen : List String) (t : String),
      t ∈ (dedupByContent l seen).map (fun d => d.page_content) ↔
        t ∈ l.map (fun d => d.page_content) ∧ t ∉ seen
  | [], _, _ => by simp [dedupByContent]
  | d :: ds, seen, t => by
    unfold dedupByContent
    split
    · rename_i hs
      rw [dedup_mem_aux ds seen t]
      simp only [List.map_cons, List.mem_cons]
      constructor
      · exact fun h => ⟨Or.inr h.1, h.2⟩
      · rintro ⟨rfl | h, hns⟩
        · exact absurd hs hns
        · exact ⟨h, hns⟩
    · rename_i hns
      simp only [List.map_cons, List.mem_cons, dedup_mem_aux ds (d.page_content :: seen) t]
      constructor
      · rintro (rfl | ⟨h, hn⟩)
        · exact ⟨Or.inl rfl, hns⟩
        · exact ⟨Or.inr h, fun hs => hn (Or.inr hs)⟩
      · rintro ⟨rfl | h, hn⟩
        · exact Or.inl rfl
        · by_cases ht : t = d.page_content
          · exact Or.inl ht
          · exact Or.inr ⟨h, by simp [ht, hn]⟩

theorem pyStartsWith_head {s p : String} {c : Char} {cs : List Char}
    (hp : p.data = c :: cs) (h : pyStartsWith s p = true) : s.data.head? = some c := by
  unfold pyStartsWith at h
  rw [hp] at h
  cases hd : s.data with
  | nil => rw [hd] at h; simp [List.isPrefixOf] at h
  | cons b bs =>
    rw [hd] at h
    simp only [List.isPrefixOf, Bool.and_eq_true, beq_iff_eq] at h
    simp [h.1]

theorem relevantContent_length_le (content : String) : (relevantContent content).length ≤ 203 := by
  unfold relevantContent
  split
  · have h1 : (String.mk (content.data.take 200) ++ "...").length
        = (String.mk (content.data.take 200)).length + ("..." : String).length := by simp
    have h2 : (String.mk (content.data.take 200)).length = (content.data.take 200).length := rfl
    have h3 : ("..." : String).length = 3 := rfl
    have h4 := List.length_take 200 content.data
    omega
  · omega

theorem mem_buildCitations :
    ∀ {docs : List Doc} {seen : List String} {c : Citation},
      c ∈ buildCitations docs seen → ∃ d : Doc, c = mkCitation d
  | [], _, _, h => by simp [buildCitations] at h
  | d :: ds, _, c, h => by
    unfold buildCitations at h
    split at h
    · exact mem_buildCitations h
    · rcases List.mem_cons.mp h with rfl | h2
      · exact ⟨d, rfl⟩
      · exact mem_buildCitations h2

/-! ### Claim theorems -/

/-- C1 (code bug): re-indexing a changed document does not replace its
stored chunks. `remove_pdf_embeddings` changes nothing (its body falls
through a `pass`), the re-index path never calls it, and
`add_pdf_embeddings` appends: after doc.pdf changes (envV1 to envV2) and is
re-indexed, the store holds two entries with the same chunkId, contradicting
the claim that re-insertion never duplicates. -/
theorem claim_C1_reindex_duplicates_chunks :
    (∀ (st : StoreState) (p : String), remove_pdf_embeddings st p = st) ∧
      (ensure_pdfs_embedded envV2 (ensure_pdfs_embedded envV1 storeEmpty ["doc.pdf"]).1
            ["doc.pdf"]).1.vectors.map (fun d => d.chunk_id)
          = ["doc.pdf_p1_c1", "doc.pdf_p1_c1"] ∧
      ¬ ((ensure_pdfs_embedded envV2 (ensure_pdfs_embedded envV1 storeEmpty ["doc.pdf"]).1
            ["doc.pdf"]).1.vectors.map (fun d => d.chunk_id)).Nodup :=
  ⟨fun _ _ => rfl, by decide, by decide⟩

/-- C4 (code bug): in a batch where loading A.pdf raises (and is skipped)
while B.pdf loads fine, `add_pdf_embeddings` still records a registry entry
for A.pdf although none of its chunks were written to the vector store —
an entry exists for un-indexed content. -/
theorem claim_C4_registry_entry_without_chunks :
    lookupMd (ensure_pdfs_embedded envMixed storeEmpty ["A.pdf", "B.pdf"]).1.metadata "A.pdf"
        = some (some ⟨1, 0, "ha"⟩) ∧
      (ensure_pdfs_embedded envMixed storeEmpty ["A.pdf", "B.pdf"]).1.vectors.map
          (fun d => d.source) = ["B.pdf"] := by
  constructor
  · decide
  · decide

/-- C5 (confirmed): when the body of the retrieval stage fails with any
exception, `rag_retriever_agent` returns (instead of raising) a state whose
summary is the explanatory error message and whose citation list is empty,
and the graph still passes that state to the summarizer and reaches the
terminal node. -/
theorem claim_C5_retrieval_failure_degrades (e : String) (st : AgentState) :
    (rag_retriever_agent (Except.error e) st).source_citations = [] ∧
      (rag_retriever_agent (Except.error e) st).summary = ragErrorMessage e ∧
      nextNode Node.rag_retriever (rag_retriever_agent (Except.error e) st)
          = some Node.summarizer ∧
      reachesDone Node.rag_retriever (rag_retriever_agent (Except.error e) st) 2 = true :=
  ⟨rfl, rfl, rfl, rfl⟩

/-- C6 (code bug): with an empty plan, `route_planner` returns the branch
key "retrieve_pdfs", which the conditional-edge dictionary of the graph does
not map — the orchestrator has no successor there (it raises at run time)
instead of transitioning to the document-selection node. The other three
routing cases behave as the claim states. -/
theorem claim_C6_empty_plan_unroutable :
    route_planner (mkState []) = "retrieve_pdfs" ∧
      nextNode Node.planner (mkState []) = none ∧
      nextNode Node.planner (mkState ["retrieve_pdfs"]) = some Node.pdf_selector ∧
      nextNode Node.planner (mkState ["summarize"]) = some Node.summarizer ∧
      nextNode Node.planner (mkState ["unknown_step"]) = some Node.pdf_selector := by
  refine ⟨rfl, rfl, ?_, ?_, ?_⟩ <;> decide

/-- C8 (confirmed): the citation built for a chunk with text
"Base area 100 m² + 10 m² per apartment" detects both area measurements. -/
theorem claim_C8_area_measurements_detected :
    "100 m²" ∈ (mkCitation areaDoc).area_measurements ∧
      "10 m²" ∈ (mkCitation areaDoc).area_measurements := by
  constructor <;> decide

set_option maxRecDepth 10000 in
/-- C9 counterexample: for a chunk text of 201 characters the produced
excerpt is its first 200 characters followed by "...", 203 characters long —
more than the 200 the claim allows. -/
theorem claim_C9_counterexample_excerpt_203 :
    mkCitation longDoc ∈ buildCitations [longDoc] [] ∧
      (mkCitation longDoc).relevant_content.length = 203 ∧
      ¬ ((mkCitation longDoc).relevant_content.length ≤ 200) := by
  refine ⟨List.mem_singleton.mpr rfl, ?_, ?_⟩ <;> decide

/-- C9 (amended): every citation's excerpt is the full chunk text when that
text is at most 200 characters, and otherwise its first 200 characters plus
"..." — in all cases at most 203 characters. -/
theorem claim_C9_amended_excerpt_bound (docs : List Doc) (seen : List String)
    (c : Citation) (h : c ∈ buildCitations docs seen) :
    c.relevant_content.length ≤ 203 := by
  obtain ⟨d, rfl⟩ := mem_buildCitations h
  exact relevantContent_length_le d.page_content

/-- Witness for C9 (amended) at the concrete 201-character chunk. -/
theorem claim_C9_amended_excerpt_bound_witness :
    mkCitation longDoc ∈ buildCitations [longDoc] [] ∧
      (mkCitation longDoc).relevant_content.length ≤ 203 :=
  ⟨List.mem_singleton.mpr rfl,
    claim_C9_amended_excerpt_bound [longDoc] [] (mkCitation longDoc)
      (List.mem_singleton.mpr rfl)⟩

/-- C10 (confirmed): routing reads only the first planned step, and only
through its lower-cased, stripped normal form — two states whose first steps
normalize identically route identically, whatever follows; in particular
" RETRIEVE_PDFS " routes to the document-selection node. -/
theorem claim_C10_routing_normalization :
    (∀ (s1 s2 : String) (r1 r2 : List String),
      pyStrip (pyLower s1) = pyStrip (pyLower s2) →
        route_planner (mkState (s1 :: r1)) = route_planner (mkState (s2 :: r2))) ∧
      (∀ rest : List String,
        nextNode Node.planner (mkState (" RETRIEVE_PDFS " :: rest)) = some Node.pdf_selector ∧
          nextNode Node.planner (mkState ("retrieve_pdfs" :: rest)) = some Node.pdf_selector) := by
  constructor
  · intro s1 s2 r1 r2 hn
    show (if pyStrip (pyLower s1) = "retrieve_pdfs" then "pdf_selector"
          else if pyStrip (pyLower s1) = "summarize" then "summarizer" else "pdf_selector")
        = (if pyStrip (pyLower s2) = "retrieve_pdfs" then "pdf_selector"
          else if pyStrip (pyLower s2) = "summarize" then "summarizer" else "pdf_selector")
    rw [hn]
  · intro rest
    exact ⟨rfl, rfl⟩

/-- C7 (confirmed): in the merged list of the retrieval tool, each distinct
chunk text surfaced by any of the queries appears exactly once, and no other
text appears. -/
theorem claim_C7_merge_dedup_exactly_once (queryResults : List (List Doc)) (t : String) :
    ((mergeResults queryResults).map (fun d => d.page_content)).count t =
      if t ∈ queryResults.flatten.map (fun d => d.page_content) then 1 else 0 := by
  have hnd := (dedup_nodup_aux queryResults.flatten []).1
  have hmem := dedup_mem_aux queryResults.flatten [] t
  simp only [List.not_mem_nil, not_false_iff, and_true] at hmem
  unfold mergeResults
  split
  · exact List.count_eq_one_of_mem hnd (hmem.mpr (by assumption))
  · rename_i hout
    exact List.count_eq_zero_of_not_mem (fun hc => hout (hmem.mp hc))

theorem pyStartsWith_clash {s p q : String} {cp cq : Char} {ps qs : List Char}
    (hp : p.data = cp :: ps) (hq : q.data = cq :: qs) (hne : cp ≠ cq)
    (h : pyStartsWith s p = true) : pyStartsWith s q = false := by
  cases hb : pyStartsWith s q with
  | false => rfl
  | true =>
    have h1 := pyStartsWith_head hp h
    have h2 := pyStartsWith_head hq hb
    rw [h1] at h2
    exact absurd (Option.some.inj h2) hne

/-- C3 (confirmed): a chunk's priority tier is exactly the spec's mapping of
the leading filename prefix of its source, and the ranked retrieval list is
ordered so that a strictly lower tier always comes first, with descending
content length inside a tier. -/
theorem claim_C3_priority_mapping_and_ordering :
    (∀ d : Doc,
      (get_document_priority d = 1 ↔
        (pyStartsWith d.source "1_" = true ∨ pyStartsWith d.source "2_" = true)) ∧
      (get_document_priority d = 2 ↔ pyStartsWith d.source "3_" = true) ∧
      (get_document_priority d = 3 ↔ pyStartsWith d.source "4_" = true) ∧
      (get_document_priority d = 4 ↔
        (pyStartsWith d.source "1_" = false ∧ pyStartsWith d.source "2_" = false ∧
          pyStartsWith d.source "3_" = false ∧ pyStartsWith d.source "4_" = false))) ∧
    (∀ queryResults : List (List Doc),
      (retrieveRanked queryResults).Pairwise (fun a b =>
        get_document_priority a < get_document_priority b ∨
          (get_document_priority a = get_document_priority b ∧
            b.page_content.length ≤ a.page_content.length))) := by
  constructor
  · intro d
    unfold get_document_priority
    split
    · rename_i hcond
      simp only [Bool.or_eq_true] at hcond
      rcases hcond with h | h
      · have h3 := @pyStartsWith_clash d.source "1_" "3_" '1' '3' ['_'] ['_'] rfl rfl (by decide) h
        have h4 := @pyStartsWith_clash d.source "1_" "4_" '1' '4' ['_'] ['_'] rfl rfl (by decide) h
        simp [h, h3, h4]
      · have h3 := @pyStartsWith_clash d.source "2_" "3_" '2' '3' ['_'] ['_'] rfl rfl (by decide) h
        have h4 := @pyStartsWith_clash d.source "2_" "4_" '2' '4' ['_'] ['_'] rfl rfl (by decide) h
        simp [h, h3, h4]
    · rename_i hcond
      split
      · rename_i h3
        have h4 := @pyStartsWith_clash d.source "3_" "4_" '3' '4' ['_'] ['_'] rfl rfl (by decide) h3
        simp only [Bool.or_eq_true, not_or, Bool.not_eq_true] at hcond
        simp [h3, h4, hcond.1, hcond.2]
      · rename_i h3
        split
        · rename_i h4
          simp only [Bool.or_eq_true, not_or, Bool.not_eq_true] at hcond
          have h3f : pyStartsWith d.source "3_" = false := by simpa using h3
          simp [h4, hcond.1, hcond.2, h3f]
        · rename_i h4
          simp only [Bool.or_eq_true, not_or, Bool.not_eq_true] at hcond
          have h3f : pyStartsWith d.source "3_" = false := by simpa using h3
          have h4f : pyStartsWith d.source "4_" = false := by simpa using h4
          simp [hcond.1, hcond.2, h3f, h4f]
  · intro queryResults
    have h := pairwise_sortDocs (mergeResults queryResults)
    unfold retrieveRanked
    exact h.sublist (List.take_sublist _ _)

theorem lookupMd_setMd_self :
    ∀ (md : Metadata) (k : String) (v : Option FileStats),
      lookupMd (setMd md k v) k = some v
  | [], k, v => by simp [setMd, lookupMd]
  | (k1, w) :: rest, k, v => by
    unfold setMd
    split
    · simp [lookupMd]
    · rename_i h
      unfold lookupMd
      rw [if_neg h]
      exact lookupMd_setMd_self rest k v

theorem mem_get_pdfs_to_process {env : Env} {md : Metadata} {pdf : String} {cur : FileStats}
    (hex : env.fexists pdf = true) (hst : env.stats pdf = some cur) :
    ∀ names : List String,
      pdf ∈ get_pdfs_to_process env md names ↔
        pdf ∈ names ∧
          (lookupMd md pdf = none ∨
            ∃ stored, lookupMd md pdf = some stored ∧ statsChanged stored cur = true)
  | [] => by simp [get_pdfs_to_process]
  | p :: rest => by
    have ih := @mem_get_pdfs_to_process env md pdf cur hex hst rest
    unfold get_pdfs_to_process
    by_cases hp : p = pdf
    · subst hp
      simp only [hex, if_true, hst]
      cases hlk : lookupMd md p with
      | none => simp [hlk]
      | some stored =>
        cases hch : statsChanged stored cur with
        | true => simp [hlk, hch]
        | false => simp [hlk, hch, ih]
    · have hp2 : pdf ≠ p := fun h => hp h.symm
      cases hfe : env.fexists p with
      | false => simp [hfe, ih, hp2]
      | true =>
        simp only [hfe, if_true]
        cases hstp : env.stats p with
        | none => simp [ih, hp2]
        | some curp =>
          cases hlkp : lookupMd md p with
          | none => simp [hlkp, ih, hp2]
          | some stp =>
            cases hchp : statsChanged stp curp with
            | true => simp [hlkp, hchp, ih, hp2]
            | false => simp [hlkp, hchp, ih, hp2]

/-- C2 (confirmed): a document with readable statistics is selected for
(re-)processing iff it was requested and either has no registry entry or its
stored statistics changed; and after a successful indexing run of a
document, running `ensure_pdfs_embedded` again on the unchanged document
returns the state unchanged — no new vectors and no registry write. -/
theorem claim_C2_idempotent_indexing :
    (∀ (env : Env) (md : Metadata) (names : List String) (pdf : String) (cur : FileStats),
      env.fexists pdf = true → env.stats pdf = some cur →
      (pdf ∈ get_pdfs_to_process env md names ↔
        pdf ∈ names ∧
          (lookupMd md pdf = none ∨
            ∃ stored, lookupMd md pdf = some stored ∧ statsChanged stored cur = true))) ∧
    (∀ (env : Env) (st : StoreState) (pdf : String) (cur : FileStats) (cs : List Doc),
      env.fexists pdf = true → env.stats pdf = some cur → env.load pdf = some cs →
      cs ≠ [] →
      (ensure_pdfs_embedded env (ensure_pdfs_embedded env st [pdf]).1 [pdf]).1
          = (ensure_pdfs_embedded env st [pdf]).1 ∧
        (ensure_pdfs_embedded env (ensure_pdfs_embedded env st [pdf]).1 [pdf]).2 = false) := by
  constructor
  · intro env md names pdf cur hex hst
    exact mem_get_pdfs_to_process hex hst names
  · intro env st pdf cur cs hex hst hld hcs
    have hcse : cs.isEmpty = false := by
      cases cs with
      | nil => exact absurd rfl hcs
      | cons a l => rfl
    have hsecond :
        ∀ st1 : StoreState, lookupMd st1.metadata pdf = some (some cur) →
          ensure_pdfs_embedded env st1 [pdf] = (st1, false) := by
      intro st1 hlk1
      unfold ensure_pdfs_embedded
      simp only [List.isEmpty_cons, List.filter, hex, List.filter_nil]
      unfold get_pdfs_to_process get_pdfs_to_process
      simp [hex, hst, hlk1, statsChanged]
    cases hlk : lookupMd st.metadata pdf with
    | none =>
      have hfirst :
          ensure_pdfs_embedded env st [pdf]
            = ({ vectors := st.vectors ++ cs,
                 metadata := setMd st.metadata pdf (some cur),
                 metadataSaves := st.metadataSaves + 1 }, true) := by
        unfold ensure_pdfs_embedded
        simp only [List.isEmpty_cons, List.filter, hex, List.filter_nil]
        unfold get_pdfs_to_process get_pdfs_to_process
        simp only [hex, if_true, hst, hlk]
        unfold add_pdf_embeddings load_pdfs_from_folder load_pdfs_from_folder updateMetadata updateMetadata
        simp [hex, hld, hst, hcse, hcs, List.length_pos]
      have h2 := hsecond
        { vectors := st.vectors ++ cs,
          metadata := setMd st.metadata pdf (some cur),
          metadataSaves := st.metadataSaves + 1 }
        (lookupMd_setMd_self _ _ _)
      rw [hfirst]
      simp [h2]
    | some stored =>
      cases hch : statsChanged stored cur with
      | true =>
        have hfirst :
            ensure_pdfs_embedded env st [pdf]
              = ({ vectors := st.vectors ++ cs,
                   metadata := setMd st.metadata pdf (some cur),
                   metadataSaves := st.metadataSaves + 1 }, true) := by
          unfold ensure_pdfs_embedded
          simp only [List.isEmpty_cons, List.filter, hex, List.filter_nil]
          unfold get_pdfs_to_process get_pdfs_to_process
          simp only [hex, if_true, hst, hlk, hch, if_true]
          unfold add_pdf_embeddings load_pdfs_from_folder load_pdfs_from_folder updateMetadata updateMetadata
          simp [hex, hld, hst, hcse, hcs, List.length_pos]
        have h2 := hsecond
          { vectors := st.vectors ++ cs,
            metadata := setMd st.metadata pdf (some cur),
            metadataSaves := st.metadataSaves + 1 }
          (lookupMd_setMd_self _ _ _)
        rw [hfirst]
        simp [h2]
      | false =>
        have hfirst : ensure_pdfs_embedded env st [pdf] = (st, false) := by
          unfold ensure_pdfs_embedded
          simp only [List.isEmpty_cons, List.filter, hex, List.filter_nil]
          unfold get_pdfs_to_process get_pdfs_to_process
          simp [hex, hst, hlk, hch]
        rw [hfirst]
        rw [hfirst]
        simp

/-- Witness for C2 at the concrete one-document filesystem `envV1`. -/
theorem claim_C2_idempotent_indexing_witness :
    ((ensure_pdfs_embedded envV1 (ensure_pdfs_embedded envV1 storeEmpty ["doc.pdf"]).1
          ["doc.pdf"]).1
        = (ensure_pdfs_embedded envV1 storeEmpty ["doc.pdf"]).1) ∧
      (ensure_pdfs_embedded envV1 (ensure_pdfs_embedded envV1 storeEmpty ["doc.pdf"]).1
          ["doc.pdf"]).2 = false :=
  claim_C2_idempotent_indexing.2 envV1 storeEmpty "doc.pdf" ⟨100, 5, "h1"⟩ [chunkOld]
    rfl rfl rfl (by decide)

/-- Witness for C10 at the concrete first steps " RETRIEVE_PDFS " and
"retrieve_pdfs". -/
theorem claim_C10_routing_normalization_witness :
    pyStrip (pyLower " RETRIEVE_PDFS ") = pyStrip (pyLower "retrieve_pdfs") ∧
      route_planner (mkState [" RETRIEVE_PDFS "]) = route_planner (mkState ["retrieve_pdfs"]) :=
  ⟨by decide,
    claim_C10_routing_normalization.1 " RETRIEVE_PDFS " "retrieve_pdfs" [] [] (by decide)⟩

end Normo
